import Mathlib

/-!
Verification development for the RAD enrichment pipeline
(backend/app/services/rad_orchestrator.py, enrichment_apis.py and the
enrichment route).  Python dicts are embedded as association lists over a
JSON-like value type; the orchestrator functions are translated one by one.
-/

namespace RAD

/-- Dynamic values appearing in source payloads and resolved profiles,
mirroring the JSON-like Python objects handled by the orchestrator. -/
inductive Value where
  | null
  | bool (b : Bool)
  | int (n : Int)
  | num (q : ℚ)
  | str (s : String)
  | list (elems : List Value)
  | dict (entries : List (String × Value))

/-- A Python dict keyed by strings, as an association list (first binding wins,
matching unique-key dicts produced by the code). -/
abbrev Dict (α : Type) := List (String × α)

/-- One adapter payload: a dict from source-specific field names to values. -/
abbrev SourceData := Dict Value

/-- Python d.get(k): first binding for k, if any. -/
def dget {α : Type} : Dict α → String → Option α
  | [], _ => none
  | (k2, v) :: t, k => if k2 = k then some v else dget t k

/-- Python d[k] = v on a dict: replace in place if the key exists, else append. -/
def dset {α : Type} : Dict α → String → α → Dict α
  | [], k, v => [(k, v)]
  | (k2, v2) :: t, k, v => if k2 = k then (k, v) :: t else (k2, v2) :: dset t k v

/-- Python truthiness of a value. -/
def truthy : Value → Bool
  | .null => false
  | .bool b => b
  | .int n => n != 0
  | .num q => q != 0
  | .str s => s != ""
  | .list es => !es.isEmpty
  | .dict es => !es.isEmpty

/-- Python truthiness of a dict: it has at least one key. -/
def dictTruthy (d : SourceData) : Bool := !d.isEmpty

/-- data.get("_error") is truthy: the result carries an error marker. -/
def hasError (d : SourceData) : Bool :=
  match dget d "_error" with
  | some v => truthy v
  | none => false

/-- data.get("_mock") is truthy: the result is synthetic fallback data. -/
def isMock (d : SourceData) : Bool :=
  match dget d "_mock" with
  | some v => truthy v
  | none => false

/-- Python test in _resolve_field: value is not None and value != "". -/
def isUsable : Value → Bool
  | .null => false
  | .str s => s != ""
  | _ => true

/-- SOURCE_PRIORITY table from rad_orchestrator.py (higher = more trusted). -/
def SOURCE_PRIORITY : Dict Nat :=
  [("apollo", 5), ("zoominfo", 4), ("pdl", 3), ("hunter", 2), ("tavily", 1)]

/-- SOURCE_PRIORITY.get(source_name, 0). -/
def prio (s : String) : Nat := (dget SOURCE_PRIORITY s).getD 0

/-- The fixed field map returned by RADOrchestrator._get_field_mappings. -/
def field_mappings : Dict (List (String × String)) :=
  [ ("first_name", [("apollo", "first_name"), ("pdl", "first_name")]),
    ("last_name", [("apollo", "last_name"), ("pdl", "last_name")]),
    ("full_name", [("pdl", "full_name")]),
    ("title", [("apollo", "title"), ("pdl", "job_title")]),
    ("company_name",
      [("apollo", "company_name"), ("zoominfo", "company_name"),
       ("pdl", "job_company_name")]),
    ("industry",
      [("apollo", "industry"), ("zoominfo", "industry"),
       ("pdl", "job_company_industry")]),
    ("company_size", [("apollo", "company_size"), ("pdl", "job_company_size")]),
    ("employee_count", [("zoominfo", "employee_count")]),
    ("linkedin_url", [("apollo", "linkedin_url"), ("pdl", "linkedin_url")]),
    ("city",
      [("apollo", "city"), ("zoominfo", "city"), ("pdl", "location_locality")]),
    ("state",
      [("apollo", "state"), ("zoominfo", "state"), ("pdl", "location_region")]),
    ("country",
      [("apollo", "country"), ("zoominfo", "country"),
       ("pdl", "location_country")]),
    ("seniority", [("apollo", "seniority")]),
    ("skills", [("pdl", "skills")]),
    ("company_description", [("zoominfo", "description")]),
    ("founded_year", [("zoominfo", "founded_year")]) ]

/-- The candidate loop of _resolve_field: for each (source, source_field) pair,
keep (priority, value) when the source result is truthy, error-free, and the
field value is usable (not None, not the empty string). -/
def buildCandidates (sources : List (String × String)) (raw : Dict SourceData) :
    List (Nat × Value) :=
  sources.filterMap (fun sc =>
    let sd := (dget raw sc.1).getD []
    if dictTruthy sd && !hasError sd then
      match dget sd sc.2 with
      | some v => if isUsable v then some (prio sc.1, v) else none
      | none => none
    else none)

/-- Comparator of candidates.sort(key=lambda x: x[0], reverse=True): a stable
sort that puts higher priorities first. -/
def prioLe (a b : Nat × Value) : Bool := decide (b.1 ≤ a.1)

/-- RADOrchestrator._resolve_field: collect candidates, stable-sort them by
descending priority, return the value of the first one (None when empty). -/
def resolve_field (field : String) (sources : List (String × String))
    (raw : Dict SourceData) : Option Value :=
  let candidates := buildCandidates sources raw
  if candidates.isEmpty then none
  else (List.head? (candidates.mergeSort prioLe)).map Prod.snd

/-- Selection rule as worded by the spec: walk the candidate list and keep the
candidate with the highest priority, an earlier candidate winning ties. -/
def specSelect : List (Nat × Value) → Option (Nat × Value)
  | [] => none
  | c :: rest =>
    match specSelect rest with
    | none => some c
    | some m => if c.1 < m.1 then some m else some c

/-- Example raw data: apollo and pdl both answer, apollo has priority 5,
pdl priority 3; the other sources are absent. -/
def rawExampleC1 : Dict SourceData :=
  [ ("apollo", [("first_name", .str "Jane"), ("last_name", .str "Doe")]),
    ("pdl", [("first_name", .str "J."), ("full_name", .str "Jane Doe")]) ]

/-- The exceptions that can cross the modelled boundaries: the uniform
EnrichmentAPIError, a JSON decode failure, an IndexError, an AttributeError,
and any other exception carrying its message. -/
inductive PyExc where
  | apiError (source message : String)
  | jsonError (message : String)
  | indexError (message : String)
  | attrError (message : String)
  | generic (message : String)

/-- str(e) for the modelled exceptions; EnrichmentAPIError passes
"source: message" to its base constructor. -/
def pystr : PyExc → String
  | .apiError s m => s ++ ": " ++ m
  | .jsonError m => m
  | .indexError m => m
  | .attrError m => m
  | .generic m => m

/-- A source adapter: enrich(email, domain) either returns a payload or raises
one of the modelled exceptions. -/
abbrev Adapter := String → String → Except PyExc SourceData

/-- The five configured source names, in the order _fetch_all_sources issues
its tasks and zips the results. -/
def source_names : List String := ["apollo", "pdl", "hunter", "tavily", "zoominfo"]

/-- RADOrchestrator._fetch_with_fallback: unknown sources and both except
branches produce a dict with only an _error entry holding str(e); a normal
return is passed through unchanged.  The function is total: no exception
escapes it. -/
def fetch_with_fallback (apis : Dict Adapter) (source email domain : String) :
    SourceData :=
  match dget apis source with
  | none => [("_error", .str ("Unknown source: " ++ source))]
  | some api =>
    match api email domain with
    | .ok d => d
    | .error e => [("_error", .str (pystr e))]

/-- RADOrchestrator._fetch_all_sources: one _fetch_with_fallback call per
configured source name, zipped back into a dict keyed by source name. -/
def fetch_all_sources (apis : Dict Adapter) (email domain : String) :
    Dict SourceData :=
  source_names.map (fun s => (s, fetch_with_fallback apis s email domain))

/-- Example adapter set for the fan-out scenario: three adapters succeed, two
raise. -/
def apolloOk : Adapter := fun email _ =>
  .ok [("email", .str email), ("first_name", .str "Jane")]

def pdlFail : Adapter := fun _ _ =>
  .error (.apiError "pdl" "API returned 500: boom")

def hunterOk : Adapter := fun email _ =>
  .ok [("email", .str email), ("status", .str "valid")]

def tavilyFail : Adapter := fun _ _ => .error (.generic "connection reset")

def zoomOk : Adapter := fun _ domain => .ok [("domain", .str domain)]

def apisExample : Dict Adapter :=
  [ ("apollo", apolloOk), ("pdl", pdlFail), ("hunter", hunterOk),
    ("tavily", tavilyFail), ("zoominfo", zoomOk) ]

/-- The successful_sources sum of _calculate_quality_score: results that are
truthy, error-free and not mock. -/
def nonMockSuccessCount (raw : Dict SourceData) : Nat :=
  (raw.filter (fun p => dictTruthy p.2 && !hasError p.2 && !isMock p.2)).length

/-- One priority bonus term: raw_data.get(s) is truthy and error-free. -/
def bonus_for (raw : Dict SourceData) (s : String) : ℚ :=
  match dget raw s with
  | some d => if dictTruthy d && !hasError d then 1 / 10 else 0
  | none => 0

/-- The priority_bonus accumulator: +0.1 for apollo, +0.1 for zoominfo. -/
def priority_bonus (raw : Dict SourceData) : ℚ :=
  bonus_for raw "apollo" + bonus_for raw "zoominfo"

/-- RADOrchestrator._calculate_quality_score: coverage over len(self.apis)
plus the priority bonus, capped at 1.0.  Numbers are modelled as rationals. -/
def calculate_quality_score (apis : Dict Adapter) (raw : Dict SourceData) : ℚ :=
  min 1 ((nonMockSuccessCount raw : ℚ) / (apis.length : ℚ) + priority_bonus raw)

/-- Raw data where every source result carries an error marker. -/
def rawAllError : Dict SourceData :=
  [ ("apollo", [("_error", .str "500")]), ("pdl", [("_error", .str "500")]),
    ("hunter", [("_error", .str "500")]), ("tavily", [("_error", .str "500")]),
    ("zoominfo", [("_error", .str "500")]) ]

/-- Raw data with one real success (hunter) and four errors. -/
def rawPlain : Dict SourceData :=
  [ ("apollo", [("_error", .str "fail")]),
    ("zoominfo", [("_error", .str "fail")]),
    ("hunter", [("status", .str "valid")]),
    ("pdl", [("_error", .str "fail")]),
    ("tavily", [("_error", .str "fail")]) ]

/-- Raw data with the same single real success (hunter), but apollo and
zoominfo answering error-free mock data, which earns both bonuses without
raising the non-mock success count. -/
def rawBonusHeavy : Dict SourceData :=
  [ ("apollo", [("company_name", .str "Acme"), ("_mock", .bool true)]),
    ("zoominfo", [("company_name", .str "Acme"), ("_mock", .bool true)]),
    ("hunter", [("status", .str "valid")]),
    ("pdl", [("_error", .str "fail")]),
    ("tavily", [("_error", .str "fail")]) ]

/-- The data_sources loop in RADOrchestrator.enrich: the names of the raw
results that are truthy and error-free (mock status is not consulted), in
iteration order. -/
def data_sources (raw : Dict SourceData) : List String :=
  (raw.filter (fun p => dictTruthy p.2 && !hasError p.2)).map Prod.fst

/-- One iteration of the per-field loop in _resolve_profile: set the canonical
field when it resolved, leave the dict alone otherwise. -/
def resolveStep (raw : Dict SourceData) (acc : Dict Value) :
    String × List (String × String) → Dict Value
  | (f, srcs) =>
    match resolve_field f srcs raw with
    | some v => dset acc f v
    | none => acc

/-- hunter_data.get("status") == "valid" and the analogous checks: a Python
equality against a string literal is true only for that exact string. -/
def strEq (v : Option Value) (s : String) : Bool :=
  match v with
  | some (.str s2) => s2 == s
  | _ => false

/-- The hunter email-verification block of _resolve_profile: when the hunter
result is truthy and error-free, set the three verification fields. -/
def hunterBlock (raw : Dict SourceData) (normalized : Dict Value) : Dict Value :=
  let hunter_data := (dget raw "hunter").getD []
  if dictTruthy hunter_data && !hasError hunter_data then
    dset (dset (dset normalized
      "email_verified" (.bool (strEq (dget hunter_data "status") "valid")))
      "email_score" ((dget hunter_data "score").getD .null))
      "email_deliverable"
        (.bool (strEq (dget hunter_data "result") "deliverable"))
  else normalized

/-- The tavily company-context block of _resolve_profile: when the tavily
result is truthy and error-free, set the context and news fields. -/
def tavilyBlock (raw : Dict SourceData) (normalized : Dict Value) : Dict Value :=
  let tavily_data := (dget raw "tavily").getD []
  if dictTruthy tavily_data && !hasError tavily_data then
    dset (dset normalized
      "company_context" ((dget tavily_data "answer").getD .null))
      "recent_news" ((dget tavily_data "results").getD (.list []))
  else normalized

/-- RADOrchestrator._resolve_profile: the generic per-field loop over the
field map on an initially empty dict, then the hunter email-verification
block, then the tavily company context block. -/
def resolve_profile (email domain : String) (raw : Dict SourceData) :
    Dict Value :=
  tavilyBlock raw (hunterBlock raw (field_mappings.foldl (resolveStep raw) []))

/-- Python single-separator str.split as a function on character lists:
"a@b@c" splits into ["a", "b", "c"], "ab" into ["ab"], "" into [""]. -/
def pySplit (sep : Char) : List Char → List (List Char)
  | [] => [[]]
  | c :: rest =>
    match pySplit sep rest with
    | h :: t => if c = sep then [] :: h :: t else (c :: h) :: t
    | [] => if c = sep then [[], []] else [[c]]

/-- The reading "substring after the first separator": everything following
the first occurrence, later occurrences included. -/
def afterFirst (sep : Char) : List Char → Option (List Char)
  | [] => none
  | c :: rest => if c = sep then some rest else afterFirst sep rest

/-- The domain fallback in RADOrchestrator.enrich (and the enrichment route):
if not domain, domain = email.split("@")[1]; indexing a one-element split
raises IndexError. -/
def deriveDomain (email : String) (domain : Option String) :
    Except PyExc String :=
  let fromSplit :=
    match (pySplit '@' email.toList).get? 1 with
    | some cs => Except.ok (String.mk cs)
    | none => Except.error (.indexError "list index out of range")
  match domain with
  | some d => if d = "" then fromSplit else .ok d
  | none => fromSplit

/-- Persistence calls the pipeline can make: store_raw_data in the
orchestrator, upsert_finalize_data in the route after enrichment returns. -/
inductive StoreOp where
  | storeRaw (email source : String) (data : SourceData)
  | upsertFinalize (email : String) (profile : Dict Value) (intro cta : String)

/-- RADOrchestrator.enrich: derive the domain, fan out the fetches, store the
truthy error-free raw results, resolve the profile, attach the metadata and
the quality score.  The try block re-raises any exception, so an error means
no profile value and, here, an empty persistence log. -/
def enrich (apis : Dict Adapter) (now : String) (email : String)
    (domain0 : Option String) : Except PyExc (Dict Value) × List StoreOp :=
  match deriveDomain email domain0 with
  | .error e => (.error e, [])
  | .ok domain =>
    let raw := fetch_all_sources apis email domain
    let log := (raw.filter (fun p => dictTruthy p.2 && !hasError p.2)).map
      (fun p => StoreOp.storeRaw email p.1 p.2)
    let normalized := resolve_profile email domain raw
    let final :=
      dset (dset (dset (dset (dset normalized "email" (.str email))
        "domain" (.str domain)) "resolved_at" (.str now))
        "data_sources" (.list ((data_sources raw).map .str)))
        "data_quality_score" (.num (calculate_quality_score apis raw))
    (.ok final, log)

/-- The enrichment route around the orchestrator: derive the domain, run
enrich, and only after it returns successfully upsert the finalize record
with the personalization text; any exception surfaces as a failure response
with no upsert. -/
def route_enrich (apis : Dict Adapter) (now : String)
    (personalize : Dict Value → String × String) (email : String)
    (domain0 : Option String) : Except PyExc (Dict Value) × List StoreOp :=
  match deriveDomain email domain0 with
  | .error e => (.error e, [])
  | .ok domain =>
    match enrich apis now email (some domain) with
    | (.error e, log) => (.error e, log)
    | (.ok finalized, log) =>
      let pc := personalize finalized
      (.ok finalized,
        log ++ [StoreOp.upsertFinalize email finalized pc.1 pc.2])

/-- Whether a persistence call writes a finalize (resolved-profile) record. -/
def StoreOp.isUpsert : StoreOp → Bool
  | .upsertFinalize _ _ _ _ => true
  | .storeRaw _ _ _ => false

/-- The outcome of the single HTTP exchange an adapter performs: a timeout, a
transport error, or a response with status, text, and a parsed JSON object
body (none when the body is not a JSON object, making .json() raise). -/
inductive HttpOutcome where
  | timeout
  | requestError (message : String)
  | response (status : Nat) (text : String) (body : Option SourceData)

/-- person.get(...) style access with a default. -/
def getOr (d : Dict Value) (k : String) (dflt : Value) : Value :=
  (dget d k).getD dflt

/-- Calling .get on a value that is not a dict raises AttributeError. -/
def asDictE (v : Value) : Except PyExc (Dict Value) :=
  match v with
  | .dict es => .ok es
  | _ => .error (.attrError "object has no attribute get")

/-- ApolloAPI._map_employee_count: falsy counts map to "Unknown", numbers to
a size bucket, anything else makes the comparison raise TypeError. -/
def map_employee_count (v : Value) : Except PyExc String :=
  if !truthy v then .ok "Unknown"
  else
    match v with
    | .int n =>
      .ok (if n < 10 then "1-10" else if n < 50 then "11-50"
        else if n < 200 then "50-200" else if n < 500 then "200-500"
        else if n < 1000 then "500-1000" else "1000+")
    | .num q =>
      .ok (if q < 10 then "1-10" else if q < 50 then "11-50"
        else if q < 200 then "50-200" else if q < 500 then "200-500"
        else if q < 1000 then "500-1000" else "1000+")
    | .bool _ => .ok "1-10"
    | _ => .error (.generic "TypeError: unsupported comparison")

/-- Python str.title restricted to ASCII: uppercase a letter that starts a
run of letters, lowercase the rest. -/
def pyTitle (l : List Char) : List Char :=
  go false l
where
  go : Bool → List Char → List Char
  | _, [] => []
  | prevAlpha, c :: t =>
    (if c.isAlpha then (if prevAlpha then c.toLower else c.toUpper) else c) ::
      go c.isAlpha t

/-- ApolloAPI._mock_response: deterministic synthetic payload derived from
the email and domain; splitting the email can raise IndexError when no
domain is supplied and the email has no "@". -/
def apollo_mock (now : String) (email : String) (domain : Option String) :
    Except PyExc SourceData :=
  let username := ((pySplit '@' email.toList).get? 0).getD []
  match (match domain with
         | some d => if d = "" then deriveDomain email none else .ok d
         | none => deriveDomain email none) with
  | .error e => .error e
  | .ok dom =>
    let hasDot := username.contains '.'
    let first :=
      if hasDot then pyTitle (((pySplit '.' username).get? 0).getD [])
      else pyTitle username
    let last :=
      if hasDot then pyTitle ((pySplit '.' username).getLastD [])
      else "User".toList
    .ok [ ("email", .str email),
          ("first_name", .str (String.mk first)),
          ("last_name", .str (String.mk last)),
          ("title", .str "Professional"),
          ("linkedin_url", .str ("https://linkedin.com/in/" ++ String.mk username)),
          ("company_name", .str ("Company at " ++ dom)),
          ("domain", .str dom),
          ("industry", .str "Technology"),
          ("company_size", .str "50-200"),
          ("country", .str "US"),
          ("fetched_at", .str now),
          ("_mock", .bool true) ]

/-- ApolloAPI.enrich: mock fallback without a key; with a key, a timeout or
transport error is converted to the uniform EnrichmentAPIError and re-raised,
an HTTP status of 400 or more raises EnrichmentAPIError from _handle_error,
a non-object body makes .json() raise a decode error, and otherwise the
payload is extracted from the parsed person object. -/
def apollo_enrich (apiKey : Option String) (http : HttpOutcome) (now : String)
    (email : String) (domain : Option String) : Except PyExc SourceData :=
  match apiKey with
  | none => apollo_mock now email domain
  | some _ =>
    match http with
    | .timeout => .error (.apiError "apollo" "Request timeout")
    | .requestError m => .error (.apiError "apollo" m)
    | .response status text body =>
      if 400 ≤ status then
        .error (.apiError "apollo"
          ("API returned " ++ toString status ++ ": " ++ text.take 200))
      else
        match body with
        | none => .error (.jsonError "Expecting value")
        | some data =>
          match asDictE (getOr data "person" (.dict [])) with
          | .error e => .error e
          | .ok person =>
            match asDictE (getOr person "organization" (.dict [])) with
            | .error e => .error e
            | .ok org =>
              match map_employee_count
                  (getOr org "estimated_num_employees" .null) with
              | .error e => .error e
              | .ok size =>
                .ok [ ("email", .str email),
                      ("first_name", getOr person "first_name" .null),
                      ("last_name", getOr person "last_name" .null),
                      ("title", getOr person "title" .null),
                      ("linkedin_url", getOr person "linkedin_url" .null),
                      ("company_name", getOr org "name" .null),
                      ("domain", getOr org "primary_domain" .null),
                      ("industry", getOr org "industry" .null),
                      ("company_size", .str size),
                      ("city", getOr person "city" .null),
                      ("state", getOr person "state" .null),
                      ("country", getOr person "country" .null),
                      ("seniority", getOr person "seniority" .null),
                      ("departments", getOr person "departments" (.list [])),
                      ("fetched_at", .str now) ]

theorem specSelect_mem {l : List (Nat × Value)} {m : Nat × Value}
    (h : specSelect l = some m) : m ∈ l := by
  induction l with
  | nil => simp [specSelect] at h
  | cons c t ih =>
    simp only [specSelect] at h
    cases ht : specSelect t with
    | none => rw [ht] at h; cases h; exact List.mem_cons_self _ _
    | some m2 =>
      rw [ht] at h
      by_cases hc : c.1 < m2.1
      · simp [hc] at h; subst h; exact List.mem_cons_of_mem _ (ih ht)
      · simp [hc] at h; subst h; exact List.mem_cons_self _ _

theorem specSelect_cons_of_gt {c : Nat × Value} {t : List (Nat × Value)}
    (h : ∀ m ∈ t, m.1 < c.1) : specSelect (c :: t) = some c := by
  simp only [specSelect]
  cases ht : specSelect t with
  | none => rfl
  | some m =>
    have hm : m.1 < c.1 := h m (specSelect_mem ht)
    simp [Nat.not_lt.mpr (Nat.le_of_lt hm)]

theorem buildCandidates_prio_sorted {sources : List (String × String)}
    {raw : Dict SourceData}
    (h : sources.Pairwise (fun s t => prio t.1 < prio s.1)) :
    (buildCandidates sources raw).Pairwise (fun a b => b.1 < a.1) := by
  have hfst : ∀ (sc : String × String) (x : Nat × Value),
      (fun sc : String × String =>
        let sd := (dget raw sc.1).getD []
        if dictTruthy sd && !hasError sd then
          match dget sd sc.2 with
          | some v => if isUsable v then some (prio sc.1, v) else none
          | none => none
        else none) sc = some x → x.1 = prio sc.1 := by
    intro sc x hx
    simp only at hx
    split at hx
    · split at hx
      · split at hx
        · cases hx; rfl
        · exact absurd hx (by simp)
      · exact absurd hx (by simp)
    · exact absurd hx (by simp)
  refine List.pairwise_filterMap.2 (h.imp ?_)
  intro a b hab x hx y hy
  rw [hfst a x hx, hfst b y hy]
  exact hab

/-- For a candidate list whose priorities strictly decrease, the stable sort of
_resolve_field leaves the list unchanged. -/
theorem mergeSort_of_prio_sorted {l : List (Nat × Value)}
    (h : l.Pairwise (fun a b => b.1 < a.1)) : l.mergeSort prioLe = l :=
  List.mergeSort_of_sorted (h.imp (fun hab => by
    simp only [prioLe, decide_eq_true_eq]
    exact Nat.le_of_lt hab))

/-- Every candidate list of the fixed field map lists its sources in strictly
decreasing trust priority. -/
theorem field_mappings_prio_sorted :
    ∀ p ∈ field_mappings, p.2.Pairwise (fun s t => prio t.1 < prio s.1) := by
  decide

theorem resolve_field_eq_specSelect (field : String)
    (sources : List (String × String)) (raw : Dict SourceData)
    (h : sources.Pairwise (fun s t => prio t.1 < prio s.1)) :
    resolve_field field sources raw =
      (specSelect (buildCandidates sources raw)).map Prod.snd := by
  have hs := @buildCandidates_prio_sorted sources raw h
  unfold resolve_field
  cases hc : buildCandidates sources raw with
  | nil => simp [specSelect]
  | cons c t =>
    rw [hc] at hs
    have hsort : (c :: t).mergeSort prioLe = c :: t := mergeSort_of_prio_sorted hs
    have hhead : ∀ m ∈ t, m.1 < c.1 := fun m hm => (List.pairwise_cons.1 hs).1 m hm
    simp [hsort, specSelect_cons_of_gt hhead]

/-- C1: for every canonical field of the fixed field map and every raw data
set, the resolved value (when present) is the value of exactly one candidate:
the first candidate, in author order, whose priority is maximal among the
candidates that survive the error/null/empty filter; it is never synthesized
from several sources, being the value of one surviving candidate. -/
theorem claim_C1 (field : String) (sources : List (String × String))
    (raw : Dict SourceData) (hmem : (field, sources) ∈ field_mappings) :
    resolve_field field sources raw =
      (specSelect (buildCandidates sources raw)).map Prod.snd ∧
    ∀ v, resolve_field field sources raw = some v →
      v ∈ (buildCandidates sources raw).map Prod.snd := by
  have h := field_mappings_prio_sorted (field, sources) hmem
  have heq := resolve_field_eq_specSelect field sources raw h
  refine ⟨heq, fun v hv => ?_⟩
  rw [heq] at hv
  cases hsel : specSelect (buildCandidates sources raw) with
  | none => rw [hsel] at hv; cases hv
  | some m =>
    rw [hsel] at hv
    cases hv
    exact List.mem_map_of_mem Prod.snd (specSelect_mem hsel)

theorem claim_C1_witness :
    (("first_name", [("apollo", "first_name"), ("pdl", "first_name")]) ∈
        field_mappings) ∧
    (resolve_field "first_name" [("apollo", "first_name"), ("pdl", "first_name")]
        rawExampleC1 =
      (specSelect (buildCandidates
        [("apollo", "first_name"), ("pdl", "first_name")] rawExampleC1)).map
        Prod.snd ∧
    ∀ v, resolve_field "first_name"
        [("apollo", "first_name"), ("pdl", "first_name")] rawExampleC1 = some v →
      v ∈ (buildCandidates [("apollo", "first_name"), ("pdl", "first_name")]
        rawExampleC1).map Prod.snd) :=
  ⟨by decide, claim_C1 "first_name" _ rawExampleC1 (by decide)⟩

theorem dget_map_self {α : Type} (F : String → α) :
    ∀ (l : List String) (k : String), k ∈ l →
      dget (l.map (fun s => (s, F s))) k = some (F k) := by
  intro l
  induction l with
  | nil => intro k hk; cases hk
  | cons a t ih =>
    intro k hk
    by_cases ha : a = k
    · subst ha; simp [dget]
    · have : k ∈ t := by
        cases hk with
        | head => exact absurd rfl ha
        | tail _ h => exact h
      simp [dget, ha, ih k this]

/-- C2: the fan-out returns exactly one entry per configured source, in order;
a raising adapter is converted into an error dict for that source only, a
succeeding adapter has its payload passed through untouched, and an unknown
source name yields an error dict instead of a lookup failure.  The fan-out is
a total function, so no exception escapes it. -/
theorem claim_C2 (apis : Dict Adapter) (email domain : String) :
    (fetch_all_sources apis email domain).map Prod.fst = source_names ∧
    ∀ s, s ∈ source_names →
      (dget (fetch_all_sources apis email domain) s =
        some (fetch_with_fallback apis s email domain)) ∧
      (∀ api d, dget apis s = some api → api email domain = .ok d →
        fetch_with_fallback apis s email domain = d) ∧
      (∀ api e, dget apis s = some api → api email domain = .error e →
        fetch_with_fallback apis s email domain =
          [("_error", .str (pystr e))]) ∧
      (dget apis s = none →
        fetch_with_fallback apis s email domain =
          [("_error", .str ("Unknown source: " ++ s))]) := by
  refine ⟨rfl, fun s hs => ⟨?_, ?_, ?_, ?_⟩⟩
  · exact dget_map_self _ source_names s hs
  · intro api d hapi hok
    simp [fetch_with_fallback, hapi, hok]
  · intro api e hapi herr
    simp [fetch_with_fallback, hapi, herr]
  · intro hnone
    simp [fetch_with_fallback, hnone]

theorem claim_C2_witness :
    ("pdl" ∈ source_names) ∧
    dget apisExample "pdl" = some pdlFail ∧
    pdlFail "jane@acme.com" "acme.com" =
      .error (.apiError "pdl" "API returned 500: boom") ∧
    fetch_with_fallback apisExample "pdl" "jane@acme.com" "acme.com" =
      [("_error", .str "pdl: API returned 500: boom")] := by
  refine ⟨by simp [source_names], rfl, rfl, ?_⟩
  have h := ((claim_C2 apisExample "jane@acme.com" "acme.com").2 "pdl"
    (by simp [source_names])).2.2.1 pdlFail
    (.apiError "pdl" "API returned 500: boom") rfl rfl
  simpa [pystr] using h

theorem dget_mem {α : Type} :
    ∀ {l : Dict α} {k : String} {v : α}, dget l k = some v → (k, v) ∈ l := by
  intro l
  induction l with
  | nil => intro k v h; cases h
  | cons p t ih =>
    intro k v h
    simp only [dget] at h
    by_cases hk : p.1 = k
    · rw [if_pos hk] at h
      cases h
      have : p = (k, p.2) := by
        cases p
        simp_all
      rw [← this]
      exact List.mem_cons_self _ _
    · rw [if_neg hk] at h
      exact List.mem_cons_of_mem _ (ih h)

theorem bonus_for_nonneg (raw : Dict SourceData) (s : String) :
    0 ≤ bonus_for raw s := by
  unfold bonus_for
  cases dget raw s with
  | none => exact le_refl 0
  | some d =>
    by_cases h : (dictTruthy d && !hasError d) = true
    · simp [h]
    · simp [h]

theorem bonus_for_eq_zero_of_error {raw : Dict SourceData} {s : String}
    (h : ∀ p ∈ raw, hasError p.2 = true) : bonus_for raw s = 0 := by
  unfold bonus_for
  cases hd : dget raw s with
  | none => rfl
  | some d =>
    have herr : hasError d = true := h (s, d) (dget_mem hd)
    simp [herr]

/-- C3: on the five configured adapters the quality score stays in [0, 1];
it is exactly 0 when every source result carries an error marker and strictly
positive as soon as one non-mock source succeeded with data; the cap keeps it
at most 1 whatever bonuses apply. -/
theorem claim_C3 (apis : Dict Adapter) (raw : Dict SourceData)
    (hlen : apis.length = 5) :
    (0 ≤ calculate_quality_score apis raw ∧
      calculate_quality_score apis raw ≤ 1) ∧
    ((∀ p ∈ raw, hasError p.2 = true) → calculate_quality_score apis raw = 0) ∧
    ((∃ p ∈ raw, dictTruthy p.2 = true ∧ hasError p.2 = false ∧
        isMock p.2 = false) → 0 < calculate_quality_score apis raw) := by
  have hb : 0 ≤ priority_bonus raw :=
    add_nonneg (bonus_for_nonneg raw "apollo") (bonus_for_nonneg raw "zoominfo")
  refine ⟨⟨?_, min_le_left _ _⟩, ?_, ?_⟩
  · refine le_min (by norm_num) (add_nonneg (div_nonneg ?_ ?_) hb) <;>
      exact Nat.cast_nonneg _
  · intro hall
    have hcnt : nonMockSuccessCount raw = 0 := by
      unfold nonMockSuccessCount
      rw [List.filter_eq_nil_iff.mpr]
      · rfl
      · intro p hp
        have := hall p hp
        simp [this]
    have hb0 : priority_bonus raw = 0 := by
      unfold priority_bonus
      rw [bonus_for_eq_zero_of_error hall, bonus_for_eq_zero_of_error hall]
      norm_num
    rw [calculate_quality_score, hcnt, hb0]
    norm_num
  · rintro ⟨p, hp, ht, he, hm⟩
    have hpred : (dictTruthy p.2 && !hasError p.2 && !isMock p.2) = true := by
      simp [ht, he, hm]
    have hcnt : 0 < nonMockSuccessCount raw := by
      unfold nonMockSuccessCount
      exact List.length_pos.mpr
        (List.ne_nil_of_mem (List.mem_filter.mpr ⟨hp, hpred⟩))
    have hcov : 0 < (nonMockSuccessCount raw : ℚ) / (apis.length : ℚ) := by
      apply div_pos
      · exact_mod_cast hcnt
      · rw [hlen]; norm_num
    exact lt_min one_pos (add_pos_of_pos_of_nonneg hcov hb)

theorem claim_C3_witness :
    apisExample.length = 5 ∧
    calculate_quality_score apisExample rawAllError = 0 ∧
    0 < calculate_quality_score apisExample rawPlain ∧
    calculate_quality_score apisExample rawPlain ≤ 1 :=
  ⟨rfl,
   (claim_C3 apisExample rawAllError rfl).2.1 (by
      intro p hp
      simp only [rawAllError, List.mem_cons, List.not_mem_nil, or_false] at hp
      rcases hp with rfl | rfl | rfl | rfl | rfl <;> rfl),
   (claim_C3 apisExample rawPlain rfl).2.2
     ⟨("hunter", [("status", Value.str "valid")]),
      by simp [rawPlain], rfl, rfl, rfl⟩,
   (claim_C3 apisExample rawPlain rfl).1.2⟩

/-- C8 fails as stated: both data sets have one non-mock, non-error success,
but the first collects the apollo and zoominfo bonuses from error-free mock
results, so the second (with an equal success count) scores strictly lower. -/
theorem claim_C8_counterexample :
    nonMockSuccessCount rawBonusHeavy ≤ nonMockSuccessCount rawPlain ∧
    calculate_quality_score apisExample rawPlain <
      calculate_quality_score apisExample rawBonusHeavy := by
  constructor
  · rfl
  · show min 1 ((1 : ℚ) / 5 + (0 + 0)) < min 1 ((1 : ℚ) / 5 + (1 / 10 + 1 / 10))
    norm_num

/-- C8 amended: the quality score is monotone in the non-mock, non-error
success count provided the priority bonus does not decrease; the bonus depends
only on the error status of the apollo and zoominfo entries, not on the
success count. -/
theorem claim_C8_amended (apis : Dict Adapter) (raw1 raw2 : Dict SourceData)
    (hcount : nonMockSuccessCount raw1 ≤ nonMockSuccessCount raw2)
    (hbonus : priority_bonus raw1 ≤ priority_bonus raw2) :
    calculate_quality_score apis raw1 ≤ calculate_quality_score apis raw2 := by
  unfold calculate_quality_score
  refine min_le_min (le_refl 1) (add_le_add ?_ hbonus)
  rw [div_eq_mul_inv, div_eq_mul_inv]
  exact mul_le_mul_of_nonneg_right (by exact_mod_cast hcount)
    (inv_nonneg.mpr (Nat.cast_nonneg _))

theorem claim_C8_witness :
    nonMockSuccessCount rawPlain ≤ nonMockSuccessCount rawBonusHeavy ∧
    priority_bonus rawPlain ≤ priority_bonus rawBonusHeavy ∧
    calculate_quality_score apisExample rawPlain ≤
      calculate_quality_score apisExample rawBonusHeavy :=
  ⟨le_refl 1,
   by
    show (0 : ℚ) + 0 ≤ 1 / 10 + 1 / 10
    norm_num,
   claim_C8_amended apisExample rawPlain rawBonusHeavy (le_refl 1)
     (by
       show (0 : ℚ) + 0 ≤ 1 / 10 + 1 / 10
       norm_num)⟩

theorem dget_map_none {α : Type} (F : String → α) :
    ∀ (l : List String) (k : String), k ∉ l →
      dget (l.map (fun s => (s, F s))) k = none := by
  intro l
  induction l with
  | nil => intro k _; rfl
  | cons a t ih =>
    intro k hk
    have ha : a ≠ k := fun h => hk (h ▸ List.mem_cons_self a t)
    have ht : k ∉ t := fun h => hk (List.mem_cons_of_mem a h)
    simp [dget, ha, ih k ht]

theorem data_sources_fetch (apis : Dict Adapter) (email domain : String) :
    data_sources (fetch_all_sources apis email domain) =
      source_names.filter (fun s =>
        dictTruthy (fetch_with_fallback apis s email domain) &&
        !hasError (fetch_with_fallback apis s email domain)) := by
  unfold data_sources fetch_all_sources
  rw [List.filter_map, List.map_map]
  have hcomp :
      (Prod.fst ∘ fun s => (s, fetch_with_fallback apis s email domain)) = id :=
    rfl
  rw [hcomp, List.map_id]
  rfl

/-- C4: a source name is listed in data_sources exactly when its fetched
result is non-empty and carries no error marker (mock or not), and the list
never has more entries than there are configured source adapters. -/
theorem claim_C4 (apis : Dict Adapter) (email domain : String) :
    (∀ s, s ∈ data_sources (fetch_all_sources apis email domain) ↔
      (∃ d, dget (fetch_all_sources apis email domain) s = some d ∧
        dictTruthy d = true ∧ hasError d = false)) ∧
    (data_sources (fetch_all_sources apis email domain)).length ≤
      source_names.length := by
  rw [data_sources_fetch]
  refine ⟨fun s => ⟨fun hmem => ?_, fun hex => ?_⟩, List.length_filter_le _ _⟩
  · obtain ⟨hs, hpred⟩ := List.mem_filter.mp hmem
    simp only [Bool.and_eq_true, Bool.not_eq_true'] at hpred
    refine ⟨fetch_with_fallback apis s email domain, ?_, hpred.1, hpred.2⟩
    unfold fetch_all_sources
    exact dget_map_self _ source_names s hs
  · obtain ⟨d, hd, ht, he⟩ := hex
    by_cases hs : s ∈ source_names
    · have hget := dget_map_self
        (fun s => fetch_with_fallback apis s email domain) source_names s hs
      unfold fetch_all_sources at hd
      rw [hget] at hd
      cases hd
      refine List.mem_filter.mpr ⟨hs, ?_⟩
      simp [ht, he]
    · have := dget_map_none
        (fun s => fetch_with_fallback apis s email domain) source_names s hs
      unfold fetch_all_sources at hd
      rw [this] at hd
      cases hd

theorem claim_C4_witness :
    (data_sources (fetch_all_sources apisExample "jane@acme.com" "acme.com")).length ≤
      source_names.length :=
  (claim_C4 apisExample "jane@acme.com" "acme.com").2

theorem dget_dset_self {α : Type} :
    ∀ (d : Dict α) (k : String) (v : α), dget (dset d k v) k = some v := by
  intro d
  induction d with
  | nil => intro k v; simp [dset, dget]
  | cons p t ih =>
    intro k v
    by_cases hk : p.1 = k
    · simp [dset, hk, dget]
    · simp [dset, hk, dget, ih]

theorem dget_dset_ne {α : Type} :
    ∀ (d : Dict α) (k k2 : String) (v : α), k2 ≠ k →
      dget (dset d k2 v) k = dget d k := by
  intro d
  induction d with
  | nil => intro k k2 v h; simp [dset, dget, h]
  | cons p t ih =>
    intro k k2 v h
    by_cases hk : p.1 = k2
    · have hpk : p.1 ≠ k := fun hc => h (by rw [← hk, hc])
      simp [dset, hk, dget, h, hpk]
    · simp only [dset, hk, if_false, dget]
      by_cases hpk : p.1 = k
      · simp [hpk]
      · simp [hpk, ih k k2 v h]

theorem dget_foldl_not_mem (raw : Dict SourceData) :
    ∀ (L : Dict (List (String × String))) (acc : Dict Value) (field : String),
      (∀ p ∈ L, p.1 ≠ field) →
      dget (L.foldl (resolveStep raw) acc) field = dget acc field := by
  intro L
  induction L with
  | nil => intro acc field _; rfl
  | cons q T ih =>
    intro acc field h
    obtain ⟨g, gs⟩ := q
    have hq : g ≠ field := h (g, gs) (List.mem_cons_self _ T)
    have hT : ∀ p ∈ T, p.1 ≠ field := fun p hp => h p (List.mem_cons_of_mem _ hp)
    rw [List.foldl_cons, ih _ field hT]
    simp only [resolveStep]
    cases resolve_field g gs raw with
    | none => rfl
    | some v => exact dget_dset_ne acc field g v hq

theorem dget_foldl_mem (raw : Dict SourceData) :
    ∀ (L : Dict (List (String × String))) (acc : Dict Value)
      (field : String) (sources : List (String × String)),
      (field, sources) ∈ L → (L.map Prod.fst).Nodup → dget acc field = none →
      dget (L.foldl (resolveStep raw) acc) field =
        resolve_field field sources raw := by
  intro L
  induction L with
  | nil => intro acc field sources hmem _ _; cases hmem
  | cons q T ih =>
    intro acc field sources hmem hnd hacc
    obtain ⟨g, gs⟩ := q
    have hnd2 : g ∉ T.map Prod.fst ∧ (T.map Prod.fst).Nodup := by
      rw [List.map_cons] at hnd
      exact List.nodup_cons.mp hnd
    rw [List.foldl_cons]
    rcases List.mem_cons.mp hmem with heq | hT
    · have hg : g = field := by
        have := congrArg Prod.fst heq
        simpa using this.symm
      have hgs : gs = sources := by
        have := congrArg Prod.snd heq
        simpa using this.symm
      subst hg
      subst hgs
      have hnotT : ∀ p ∈ T, p.1 ≠ g := by
        intro p hp hcontra
        exact hnd2.1 (hcontra ▸ List.mem_map_of_mem Prod.fst hp)
      rw [dget_foldl_not_mem raw T _ g hnotT]
      simp only [resolveStep]
      cases hr : resolve_field g gs raw with
      | none => exact hacc
      | some v => exact dget_dset_self acc g v
    · have hg : g ≠ field := by
        intro hcontra
        exact hnd2.1 (hcontra ▸ List.mem_map_of_mem Prod.fst hT)
      refine ih _ field sources hT hnd2.2 ?_
      simp only [resolveStep]
      cases resolve_field g gs raw with
      | none => exact hacc
      | some v => rw [dget_dset_ne acc field g v hg, hacc]

theorem field_mappings_keys_nodup : (field_mappings.map Prod.fst).Nodup := by
  decide

theorem field_mappings_not_special :
    ∀ p ∈ field_mappings,
      p.1 ≠ "email_verified" ∧ p.1 ≠ "email_score" ∧
      p.1 ≠ "email_deliverable" ∧ p.1 ≠ "company_context" ∧
      p.1 ≠ "recent_news" := by
  decide

theorem dget_hunterBlock (raw : Dict SourceData) (n : Dict Value)
    (field : String) (h1 : field ≠ "email_verified")
    (h2 : field ≠ "email_score") (h3 : field ≠ "email_deliverable") :
    dget (hunterBlock raw n) field = dget n field := by
  unfold hunterBlock
  dsimp only
  split
  · rw [dget_dset_ne _ _ _ _ (Ne.symm h3), dget_dset_ne _ _ _ _ (Ne.symm h2),
      dget_dset_ne _ _ _ _ (Ne.symm h1)]
  · rfl

theorem dget_tavilyBlock (raw : Dict SourceData) (n : Dict Value)
    (field : String) (h4 : field ≠ "company_context")
    (h5 : field ≠ "recent_news") :
    dget (tavilyBlock raw n) field = dget n field := by
  unfold tavilyBlock
  dsimp only
  split
  · rw [dget_dset_ne _ _ _ _ (Ne.symm h5), dget_dset_ne _ _ _ _ (Ne.symm h4)]
  · rfl

/-- For a canonical field of the field map, the resolved profile holds exactly
what _resolve_field produced for it: the special hunter and tavily keys never
shadow a canonical field. -/
theorem dget_resolve_profile (email domain : String) (raw : Dict SourceData)
    (field : String) (sources : List (String × String))
    (hmem : (field, sources) ∈ field_mappings) :
    dget (resolve_profile email domain raw) field =
      resolve_field field sources raw := by
  obtain ⟨h1, h2, h3, h4, h5⟩ := field_mappings_not_special _ hmem
  unfold resolve_profile
  rw [dget_tavilyBlock raw _ field h4 h5, dget_hunterBlock raw _ field h1 h2 h3]
  exact dget_foldl_mem raw field_mappings [] field sources hmem
    field_mappings_keys_nodup rfl

theorem resolve_field_usable (field : String)
    (sources : List (String × String)) (raw : Dict SourceData) (v : Value)
    (h : resolve_field field sources raw = some v) : isUsable v = true := by
  unfold resolve_field at h
  by_cases hc : (buildCandidates sources raw).isEmpty
  · rw [if_pos hc] at h; cases h
  · rw [if_neg hc] at h
    cases hh : List.head? ((buildCandidates sources raw).mergeSort prioLe) with
    | none => rw [hh] at h; cases h
    | some c =>
      rw [hh] at h
      cases h
      have hcmem : c ∈ (buildCandidates sources raw).mergeSort prioLe :=
        List.mem_of_mem_head? hh
      rw [List.mem_mergeSort] at hcmem
      obtain ⟨sc, _, hsc⟩ := List.mem_filterMap.mp hcmem
      simp only at hsc
      split at hsc
      · split at hsc
        · split at hsc
          · cases hsc
            assumption
          · cases hsc
        · cases hsc
      · cases hsc

/-- C7: a canonical field with no surviving candidate (every configured
source erroring, missing, null or empty) is absent from the resolved profile;
and when the field is present its value comes from _resolve_field and is never
an explicit null. -/
theorem claim_C7 (field : String) (sources : List (String × String))
    (email domain : String) (raw : Dict SourceData)
    (hmem : (field, sources) ∈ field_mappings) :
    (buildCandidates sources raw = [] →
      dget (resolve_profile email domain raw) field = none) ∧
    (∀ v, dget (resolve_profile email domain raw) field = some v →
      resolve_field field sources raw = some v ∧ v ≠ Value.null) := by
  have hprof := dget_resolve_profile email domain raw field sources hmem
  constructor
  · intro hempty
    rw [hprof]
    unfold resolve_field
    rw [hempty]
    rfl
  · intro v hv
    rw [hprof] at hv
    refine ⟨hv, fun hnull => ?_⟩
    have := resolve_field_usable field sources raw v hv
    rw [hnull] at this
    cases this

theorem claim_C7_witness :
    (("seniority", [("apollo", "seniority")]) ∈ field_mappings) ∧
    buildCandidates [("apollo", "seniority")] [] = [] ∧
    dget (resolve_profile "jane@acme.com" "acme.com" []) "seniority" = none :=
  ⟨by decide, rfl,
   (claim_C7 "seniority" [("apollo", "seniority")] "jane@acme.com" "acme.com"
     [] (by decide)).1 rfl⟩

/-- C9: profile resolution over a fixed raw snapshot is a pure function of
its arguments: two calls on identical raw data and the fixed field map yield
identical resolved output (the resolved_at timestamp is attached later, in
enrich, not here). -/
theorem claim_C9 (email domain : String) (raw raw2 : Dict SourceData)
    (h : raw = raw2) :
    resolve_profile email domain raw = resolve_profile email domain raw2 := by
  rw [h]

theorem claim_C9_witness :
    rawPlain = rawPlain ∧
    resolve_profile "jane@acme.com" "acme.com" rawPlain =
      resolve_profile "jane@acme.com" "acme.com" rawPlain :=
  ⟨rfl, claim_C9 "jane@acme.com" "acme.com" rawPlain rawPlain rfl⟩

theorem pySplit_ne_nil (sep : Char) : ∀ l : List Char, pySplit sep l ≠ [] := by
  intro l
  induction l with
  | nil => simp [pySplit]
  | cons c rest ih =>
    simp only [pySplit]
    cases h : pySplit sep rest with
    | nil => exact absurd h ih
    | cons a t => by_cases hc : c = sep <;> simp [hc]

theorem pySplit_no_sep (sep : Char) :
    ∀ l : List Char, sep ∉ l → pySplit sep l = [l] := by
  intro l
  induction l with
  | nil => intro _; rfl
  | cons c rest ih =>
    intro h
    have hc : c ≠ sep := fun e => h (e ▸ List.mem_cons_self c rest)
    have hr : sep ∉ rest := fun e => h (List.mem_cons_of_mem c e)
    simp only [pySplit, ih hr]
    simp [hc]

theorem pySplit_append (sep : Char) :
    ∀ (a b : List Char), sep ∉ a →
      pySplit sep (a ++ sep :: b) = a :: pySplit sep b := by
  intro a
  induction a with
  | nil =>
    intro b _
    simp only [List.nil_append, pySplit]
    cases h : pySplit sep b with
    | nil => exact absurd h (pySplit_ne_nil sep b)
    | cons x t => simp
  | cons c a2 ih =>
    intro b h
    have hc : c ≠ sep := fun e => h (e ▸ List.mem_cons_self _ _)
    have ha : sep ∉ a2 := fun e => h (List.mem_cons_of_mem _ e)
    simp only [List.cons_append, pySplit, List.append_eq]
    rw [ih b ha]
    simp [hc]

theorem pySplit_length_two (sep : Char) :
    ∀ l : List Char, sep ∈ l → 2 ≤ (pySplit sep l).length := by
  intro l
  induction l with
  | nil => intro h; cases h
  | cons c rest ih =>
    intro h
    simp only [pySplit]
    cases hr : pySplit sep rest with
    | nil => exact absurd hr (pySplit_ne_nil sep rest)
    | cons x t =>
      by_cases hc : c = sep
      · simp [hc]
      · have hrest : sep ∈ rest := by
          cases h with
          | head => exact absurd rfl hc
          | tail _ hh => exact hh
        have h2 := ih hrest
        rw [hr] at h2
        simp only [List.length_cons] at h2 ⊢
        simp [hc]
        omega

/-- C10 fails in one detail: for an email with several "@" characters the
code takes split("@")[1], the text between the first and second "@", not the
whole substring after the first "@". -/
theorem claim_C10_counterexample :
    deriveDomain "a@b@c" none = .ok "b" ∧
    afterFirst '@' "a@b@c".toList = some "b@c".toList ∧
    ("b" : String) ≠ "b@c" :=
  ⟨rfl, rfl, by decide⟩

/-- C10 amended: called without an explicit domain, enrich requires at least
one "@" in the email; the derivation then returns split("@")[1] (for a
single-"@" email, exactly the substring after the "@"); with no "@" the call
raises an unhandled IndexError, returning no result and persisting nothing. -/
theorem claim_C10_amended (email : String) (apis : Dict Adapter) (now : String) :
    ('@' ∈ email.toList →
      ∃ cs, (pySplit '@' email.toList).get? 1 = some cs ∧
        deriveDomain email none = .ok (String.mk cs)) ∧
    (∀ a b : List Char, email.toList = a ++ '@' :: b → '@' ∉ a → '@' ∉ b →
      deriveDomain email none = .ok (String.mk b)) ∧
    ('@' ∉ email.toList →
      deriveDomain email none = .error (.indexError "list index out of range") ∧
      enrich apis now email none =
        (.error (.indexError "list index out of range"), [])) := by
  refine ⟨?_, ?_, ?_⟩
  · intro h
    have hlen := pySplit_length_two '@' email.toList h
    cases hp : pySplit '@' email.toList with
    | nil => exact absurd hp (pySplit_ne_nil _ _)
    | cons x t =>
      cases t with
      | nil => rw [hp] at hlen; simp at hlen
      | cons y t2 =>
        refine ⟨y, by simp, ?_⟩
        unfold deriveDomain
        rw [hp]
        rfl
  · intro a b heq ha hb
    have hsplit : pySplit '@' email.toList = a :: pySplit '@' b := by
      rw [heq]; exact pySplit_append '@' a b ha
    rw [pySplit_no_sep '@' b hb] at hsplit
    unfold deriveDomain
    rw [hsplit]
    rfl
  · intro h
    have hsplit := pySplit_no_sep '@' email.toList h
    have hd : deriveDomain email none =
        .error (.indexError "list index out of range") := by
      unfold deriveDomain
      rw [hsplit]
      rfl
    exact ⟨hd, by simp [enrich, hd]⟩

theorem claim_C10_witness :
    ('@' ∈ "jane@acme.com".toList) ∧
    deriveDomain "jane@acme.com" none = .ok "acme.com" ∧
    ('@' ∉ "janeacme.com".toList) ∧
    enrich apisExample "2024" "janeacme.com" none =
      (.error (.indexError "list index out of range"), []) := by
  refine ⟨by decide, ?_, by decide, ?_⟩
  · have h := (claim_C10_amended "jane@acme.com" apisExample "2024").2.1
      "jane".toList "acme.com".toList (by decide) (by decide) (by decide)
    simpa using h
  · exact ((claim_C10_amended "janeacme.com" apisExample "2024").2.2
      (by decide)).2

theorem enrich_error_log (apis : Dict Adapter) (now email : String)
    (domain0 : Option String) (e : PyExc) (lg : List StoreOp)
    (h : enrich apis now email domain0 = (.error e, lg)) : lg = [] := by
  unfold enrich at h
  cases hd : deriveDomain email domain0 with
  | error e2 =>
    rw [hd] at h
    injection h with h1 h2
    exact h2.symm
  | ok dm =>
    rw [hd] at h
    simp at h

theorem route_enrich_of_derive_ok (apis : Dict Adapter) (now : String)
    (personalize : Dict Value → String × String) (email : String)
    (domain0 : Option String) (domain : String)
    (hd : deriveDomain email domain0 = .ok domain) :
    route_enrich apis now personalize email domain0 =
      (match enrich apis now email (some domain) with
       | (.error e, log) => (.error e, log)
       | (.ok finalized, log) =>
         (.ok finalized, log ++ [StoreOp.upsertFinalize email finalized
            (personalize finalized).1 (personalize finalized).2])) := by
  unfold route_enrich
  rw [hd]

/-- C6: if the resolution pipeline fails with an exception, the caller gets
no profile value and the run performs no finalize upsert: the resolved
profile is neither returned nor persisted; only raw payload stores (made
before a later failure) can appear in the log. -/
theorem claim_C6 (apis : Dict Adapter) (now : String)
    (personalize : Dict Value → String × String) (email : String)
    (domain0 : Option String) (e : PyExc) (log : List StoreOp)
    (h : route_enrich apis now personalize email domain0 = (.error e, log)) :
    ∀ op ∈ log, StoreOp.isUpsert op = false := by
  cases hd : deriveDomain email domain0 with
  | error e2 =>
    unfold route_enrich at h
    rw [hd] at h
    injection h with h1 h2
    rw [← h2]
    intro op hop
    cases hop
  | ok domain =>
    rw [route_enrich_of_derive_ok apis now personalize email domain0 domain hd]
      at h
    rcases henr : enrich apis now email (some domain) with ⟨res, lg⟩
    rw [henr] at h
    cases res with
    | error e2 =>
      have h2 : ((Except.error e2 : Except PyExc (Dict Value)), lg) =
          (Except.error e, log) := h
      injection h2 with h1 h2b
      have hlg := enrich_error_log apis now email (some domain) e2 lg henr
      rw [← h2b, hlg]
      intro op hop
      cases hop
    | ok fin =>
      have h2 : ((Except.ok fin : Except PyExc (Dict Value)),
          lg ++ [StoreOp.upsertFinalize email fin
            (personalize fin).1 (personalize fin).2]) =
          (Except.error e, log) := h
      exact absurd (congrArg Prod.fst h2) (by simp)

theorem claim_C6_witness :
    route_enrich apisExample "2024" (fun _ => ("intro", "cta"))
      "janeacme.com" none =
      (.error (.indexError "list index out of range"), []) ∧
    (∀ op ∈ ([] : List StoreOp), StoreOp.isUpsert op = false) :=
  ⟨rfl, claim_C6 apisExample "2024" (fun _ => ("intro", "cta"))
    "janeacme.com" none _ _ rfl⟩

theorem asDictE_error {v : Value} {e : PyExc} (h : asDictE v = .error e) :
    e = .attrError "object has no attribute get" := by
  cases v <;> simp only [asDictE] at h <;>
    first
      | (injection h with h1; exact h1.symm)
      | cases h

theorem map_employee_count_error {v : Value} {e : PyExc}
    (h : map_employee_count v = .error e) :
    e = .generic "TypeError: unsupported comparison" := by
  unfold map_employee_count at h
  split at h
  · cases h
  · cases v <;> simp only at h <;>
      first
        | (injection h with h1; exact h1.symm)
        | cases h

/-- C5 fails as stated: on timeout the Apollo adapter does not return an
error SourceResult at all — it raises the uniform EnrichmentAPIError, whose
reason string is "Request timeout", not "timeout"; the conversion into an
error dict happens one layer up, in the fetch fan-out. -/
theorem claim_C5_counterexample :
    apollo_enrich (some "key") HttpOutcome.timeout "2024" "jane@acme.com"
      (some "acme.com") =
      .error (.apiError "apollo" "Request timeout") ∧
    ("Request timeout" : String) ≠ "timeout" :=
  ⟨rfl, by decide⟩

/-- C5 amended: with a configured key, a timeout raises EnrichmentAPIError
with reason "Request timeout", a transport error raises EnrichmentAPIError
with its message, an HTTP status of 400 or more raises EnrichmentAPIError
with the status and body excerpt; every exception the adapter lets escape is
the uniform EnrichmentAPIError, a JSON decode error for a malformed body, or
the dynamic-access errors of payload extraction — never a provider (httpx)
exception; the fetch layer then converts each into an error SourceResult. -/
theorem claim_C5_amended (key : String) (http : HttpOutcome)
    (now email : String) (domain : Option String) :
    (http = .timeout → apollo_enrich (some key) http now email domain =
      .error (.apiError "apollo" "Request timeout")) ∧
    (∀ m, http = .requestError m →
      apollo_enrich (some key) http now email domain =
        .error (.apiError "apollo" m)) ∧
    (∀ status text body, http = .response status text body → 400 ≤ status →
      apollo_enrich (some key) http now email domain =
        .error (.apiError "apollo"
          ("API returned " ++ toString status ++ ": " ++ text.take 200))) ∧
    (∀ e, apollo_enrich (some key) http now email domain = .error e →
      (∃ m, e = .apiError "apollo" m) ∨ e = .jsonError "Expecting value" ∨
      e = .attrError "object has no attribute get" ∨
      e = .generic "TypeError: unsupported comparison") := by
  refine ⟨?_, ?_, ?_, ?_⟩
  · rintro rfl; rfl
  · rintro m rfl; rfl
  · rintro status text body rfl hst
    simp [apollo_enrich, hst]
  · intro e he
    cases http with
    | timeout =>
      injection he with h1
      exact Or.inl ⟨"Request timeout", h1.symm⟩
    | requestError m =>
      injection he with h1
      exact Or.inl ⟨m, h1.symm⟩
    | response status text body =>
      simp only [apollo_enrich] at he
      split at he
      · injection he with h1
        exact Or.inl ⟨_, h1.symm⟩
      · cases body with
        | none =>
          injection he with h1
          exact Or.inr (Or.inl h1.symm)
        | some data =>
          simp only at he
          split at he
          next ep hperson =>
            injection he with h1
            exact Or.inr (Or.inr (Or.inl ((asDictE_error hperson) ▸ h1.symm)))
          next person hperson =>
            split at he
            next eo horg =>
              injection he with h1
              exact Or.inr (Or.inr (Or.inl ((asDictE_error horg) ▸ h1.symm)))
            next org horg =>
              split at he
              next em hmec =>
                injection he with h1
                exact Or.inr (Or.inr (Or.inr
                  ((map_employee_count_error hmec) ▸ h1.symm)))
              next size hmec =>
                cases he

theorem claim_C5_witness :
    (HttpOutcome.timeout = HttpOutcome.timeout) ∧
    apollo_enrich (some "key") HttpOutcome.timeout "2024" "j@a.com"
      (some "a.com") = .error (.apiError "apollo" "Request timeout") ∧
    apollo_enrich (some "key") (HttpOutcome.response 500 "boom" none) "2024"
      "j@a.com" (some "a.com") =
      .error (.apiError "apollo"
        ("API returned " ++ toString 500 ++ ": " ++ "boom".take 200)) :=
  ⟨rfl,
   (claim_C5_amended "key" HttpOutcome.timeout "2024" "j@a.com"
     (some "a.com")).1 rfl,
   (claim_C5_amended "key" (HttpOutcome.response 500 "boom" none) "2024"
     "j@a.com" (some "a.com")).2.2.1 500 "boom" none rfl (by norm_num)⟩

end RAD
